import Mathlib

/-!
Verification of the LMS solution review pipeline.

This file gives a shallow embedding of the core of the LMS repository
(`lms/lmsdb/models.py` and `lms/lmstests/public/unittests/services.py`):
the solution state machine, the version superseder, the review queue
selector, the automated-result ingestor and the bounded notification
store.  Database tables are modelled as Lean lists of rows; each SQL
query of the source is translated into explicit list operations
(filter / map / sort / aggregate) with the same semantics, and the
behaviour of each operation is then settled by theorems below.
-/

namespace LMS

/-- Mirrors the `SolutionState` enum of `lmsdb/models.py`. -/
inductive SolutionState where
  | CREATED
  | IN_CHECKING
  | DONE
  | OLD_SOLUTION
deriving DecidableEq, Repr

/-- Mirrors `SolutionState.active_solutions()`: the states DONE,
IN_CHECKING and CREATED are active; OLD_SOLUTION is not. -/
def SolutionState.isActive : SolutionState → Bool
  | .DONE => true
  | .IN_CHECKING => true
  | .CREATED => true
  | .OLD_SOLUTION => false

/-- One row of the `Solution` table.  Timestamps are abstracted to
natural numbers; `json_data_str` is the submitted content. -/
structure SolutionRow where
  id : Nat
  exercise : Nat
  solver : Nat
  state : SolutionState
  submission_timestamp : Nat
  json_data_str : String
deriving DecidableEq, Repr

/-- The `Solution` table: a list of rows in insertion order. -/
abbrev SolutionTable := List SolutionRow

/-- Mirrors `Solution.set_state`: an UPDATE of the `state` column scoped
only by solution id (the source leaves the old-state filter as an
unwritten option), returning the updated table together with the
result of `changes.execute() == 1`. -/
def set_state (db : SolutionTable) (sid : Nat) (new_state : SolutionState) :
    SolutionTable × Bool :=
  let db2 := db.map (fun s => if s.id = sid then { s with state := new_state } else s)
  (db2, (db.filter (fun s => s.id = sid)).length = 1)

/-- Mirrors `Solution.start_checking`: `set_state(IN_CHECKING)`. -/
def start_checking (db : SolutionTable) (sid : Nat) : SolutionTable × Bool :=
  set_state db sid SolutionState.IN_CHECKING

/-- Mirrors `Solution.solution_exists`: an EXISTS query over rows of the
same exercise, solver and byte-identical `json_data_str`. -/
def solution_exists (db : SolutionTable) (eid uid : Nat) (json : String) : Bool :=
  db.any (fun s => s.exercise = eid ∧ s.solver = uid ∧ s.json_data_str = json)

/-- Mirrors `Solution.create_solution`: insert a new CREATED row, select
every other row of the same (exercise, solver) pair, and run
`set_state(OLD_SOLUTION)` on each of them in turn. -/
def create_solution (db : SolutionTable) (newId eid uid ts : Nat)
    (json : String) : SolutionTable :=
  let inserted : SolutionTable :=
    db ++ [⟨newId, eid, uid, SolutionState.CREATED, ts, json⟩]
  let others : SolutionTable :=
    inserted.filter (fun s => s.exercise = eid ∧ s.solver = uid ∧ s.id ≠ newId)
  others.foldl (fun acc old => (set_state acc old.id SolutionState.OLD_SOLUTION).1)
    inserted

/-- Mirrors `Solution.left_in_exercise`: aggregate COUNT and SUM over
the active solutions of one exercise, then
`int(checked * 100 / submitted)`.  When the exercise has no active
solution the Python expression raises (SUM is NULL and the divisor is
zero), modelled as `Except.error`. -/
def left_in_exercise (db : SolutionTable) (eid : Nat) : Except Unit Nat :=
  let active := db.filter (fun s => s.exercise = eid ∧ s.state.isActive)
  let submitted := active.length
  let checked := (active.filter (fun s => s.state = SolutionState.DONE)).length
  if submitted = 0 then Except.error () else Except.ok (checked * 100 / submitted)

/-- A row with the state column overwritten to OLD_SOLUTION, the update
performed on each old row by the version superseder. -/
def mark_old (s : SolutionRow) : SolutionRow :=
  { s with state := SolutionState.OLD_SOLUTION }

/-- The row `create_solution` inserts: state CREATED, the given
timestamp and content. -/
def new_solution_row (i e u t : Nat) (j : String) : SolutionRow :=
  ⟨i, e, u, SolutionState.CREATED, t, j⟩

/-- The rows of one (exercise, solver) pair, the projection the version
superseder queries and the invariants of the spec quantify over. -/
def pair_rows (db : SolutionTable) (eid uid : Nat) : SolutionTable :=
  db.filter (fun s => s.exercise = eid ∧ s.solver = uid)

/-- N sequential `create_solution` calls for one (exercise, solver)
pair; each call supplies a fresh id and a timestamp. -/
def apply_creates (eid uid : Nat) : SolutionTable → List (Nat × Nat) → SolutionTable
  | db, [] => db
  | db, (i, t) :: rest =>
      apply_creates eid uid (create_solution db i eid uid t "") rest

/-- The OLD_SOLUTION row left behind for one earlier (id, timestamp)
call of the pair. -/
def superseded_row (e u : Nat) (c : Nat × Nat) : SolutionRow :=
  ⟨c.1, e, u, SolutionState.OLD_SOLUTION, c.2, ""⟩

/-- One row of the `Comment` table, reduced to the columns the review
queue selector touches: the primary key and the solution it annotates. -/
structure CommentRow where
  id : Nat
  solution : Nat
deriving DecidableEq, Repr

/-- One row of the `SolutionExerciseTestExecution` table, reduced to the
columns the review queue selector touches. -/
structure TestExecutionRow where
  id : Nat
  solution : Nat
deriving DecidableEq, Repr

/-- The rows SOLUTION LEFT OUTER JOIN COMMENT LEFT OUTER JOIN
SOLUTIONEXERCISETESTEXECUTION contributes for one solution, as built by
`_base_next_unchecked`: each left join yields the matching rows, or a
single row with a NULL column when nothing matches. -/
def joined_rows (cs : List CommentRow) (es : List TestExecutionRow)
    (s : SolutionRow) : List (Option CommentRow × Option TestExecutionRow) :=
  let cMatch := cs.filter (fun c => c.solution = s.id)
  let firstJoin : List (Option CommentRow) :=
    if cMatch = [] then [none] else cMatch.map some
  let eMatch := es.filter (fun e => e.solution = s.id)
  firstJoin.flatMap (fun c =>
    if eMatch = [] then [(c, none)] else eMatch.map (fun e => (c, some e)))

/-- Mirrors `fn.Count(Comment.id)` of `_base_next_unchecked`: COUNT over
the joined rows of the non-NULL comment ids of one group. -/
def comments_count (cs : List CommentRow) (es : List TestExecutionRow)
    (s : SolutionRow) : Nat :=
  (joined_rows cs es s).countP (fun r => r.1.isSome)

/-- Mirrors `fn.Count(SolutionExerciseTestExecution.id)` (aliased
`failures`) of `_base_next_unchecked`. -/
def failures_count (cs : List CommentRow) (es : List TestExecutionRow)
    (s : SolutionRow) : Nat :=
  (joined_rows cs es s).countP (fun r => r.2.isSome)

/-- The three-key ORDER BY of `_base_next_unchecked`: comments count,
failures count, submission timestamp, all ascending. -/
def rank_key (cs : List CommentRow) (es : List TestExecutionRow)
    (s : SolutionRow) : Nat × Nat × Nat :=
  (comments_count cs es s, failures_count cs es s, s.submission_timestamp)

/-- Strict lexicographic comparison of the three sort keys. -/
def key_lt (a b : Nat × Nat × Nat) : Bool :=
  decide (a.1 < b.1 ∨ (a.1 = b.1 ∧ (a.2.1 < b.2.1 ∨
    (a.2.1 = b.2.1 ∧ a.2.2 < b.2.2))))

/-- One comparison step of the ordered scan: keep the strictly smaller
key, the earlier row on ties. -/
def better_of (key : SolutionRow → Nat × Nat × Nat)
    (acc : Option SolutionRow) (s : SolutionRow) : Option SolutionRow :=
  match acc with
  | none => some s
  | some b => if key_lt (key s) (key b) then some s else some b

/-- First row of the ordered query: the earliest listed row that is
minimal under the key (a stable multi-key ascending sort followed by
`.get()` of the first row). -/
def first_by_rank (key : SolutionRow → Nat × Nat × Nat)
    (l : List SolutionRow) : Option SolutionRow :=
  l.foldl (better_of key) none

/-- Mirrors `Solution.next_unchecked`: the first row of
`_base_next_unchecked`, or None when the queue is empty. -/
def next_unchecked (db : SolutionTable) (cs : List CommentRow)
    (es : List TestExecutionRow) : Option SolutionRow :=
  first_by_rank (rank_key cs es)
    (db.filter (fun s => s.state = SolutionState.CREATED))

/-- Mirrors `Solution.next_unchecked_of`: `_base_next_unchecked` with an
additional WHERE on the exercise id. -/
def next_unchecked_of (db : SolutionTable) (cs : List CommentRow)
    (es : List TestExecutionRow) (eid : Nat) : Option SolutionRow :=
  first_by_rank (rank_key cs es)
    ((db.filter (fun s => s.state = SolutionState.CREATED)).filter
      (fun s => s.exercise = eid))

/-- Modelled from the spec words, for comparison with the code: the
number of Comment rows attached to one solution. -/
def spec_comment_count (cs : List CommentRow) (s : SolutionRow) : Nat :=
  (cs.filter (fun c => c.solution = s.id)).length

/-- Modelled from the spec words, for comparison with the code: the
number of TestExecutionResult failure rows recorded against one
solution. -/
def spec_failure_count (es : List TestExecutionRow) (s : SolutionRow) : Nat :=
  (es.filter (fun e => e.solution = s.id)).length

/-- Modelled from the spec words: the three-key ascending order of the
claim — fewest Comment rows, then fewest failure rows, then earliest
submission timestamp. -/
def spec_rank_key (cs : List CommentRow) (es : List TestExecutionRow)
    (s : SolutionRow) : Nat × Nat × Nat :=
  (spec_comment_count cs s, spec_failure_count es s, s.submission_timestamp)

/-- Modelled from the spec words: the selector the claim describes,
minimal CREATED solution under `spec_rank_key`. -/
def spec_next_unchecked (db : SolutionTable) (cs : List CommentRow)
    (es : List TestExecutionRow) : Option SolutionRow :=
  first_by_rank (spec_rank_key cs es)
    (db.filter (fun s => s.state = SolutionState.CREATED))

/-- One row of the `Exercise` table, reduced to the columns
`Solution.status` touches. -/
structure ExerciseRow where
  id : Nat
  subject : String
  is_archived : Bool
deriving DecidableEq, Repr

/-- One result row of `Solution.status`: the selected fields of the
grouped aggregate query. -/
structure StatusRow where
  id : Nat
  name : String
  is_archived : Bool
  submitted : Nat
  checked : Nat
deriving DecidableEq, Repr

/-- Mirrors `Solution.status`: EXERCISE LEFT OUTER JOIN SOLUTION, WHERE
the solution state is active (which drops the NULL rows of exercises
with no active solution), grouped per exercise, COUNT of solutions and
SUM of the is-DONE case expression, ordered by exercise id. -/
def status (exs : List ExerciseRow) (db : SolutionTable) : List StatusRow :=
  (List.insertionSort (fun a b : ExerciseRow => a.id ≤ b.id) exs).filterMap
    (fun e =>
      let active := db.filter (fun s => s.exercise = e.id ∧ s.state.isActive)
      if active.isEmpty then none
      else some ⟨e.id, e.subject, e.is_archived, active.length,
        (active.filter (fun s => s.state = SolutionState.DONE)).length⟩)

/-- Mirrors `Notification.MAX_PER_USER`. -/
def MAX_PER_USER : Nat := 10

/-- One row of the `Notification` table; creation timestamps are
abstracted to natural numbers. -/
structure NotificationRow where
  id : Nat
  user : Nat
  created : Nat
  kind : Nat
  message : String
  related_id : Option Nat
  action_url : Option String
  viewed : Bool
deriving DecidableEq, Repr

/-- The `Notification` table in insertion order. -/
abbrev NotificationTable := List NotificationRow

/-- ORDER BY created DESC of the retention trigger. -/
def created_desc (a b : NotificationRow) : Prop := b.created ≤ a.created

instance : DecidableRel created_desc :=
  fun a b => inferInstanceAs (Decidable (b.created ≤ a.created))

instance : IsTotal NotificationRow created_desc :=
  ⟨fun a b => Nat.le_total b.created a.created⟩

instance : IsTrans NotificationRow created_desc :=
  ⟨fun _ _ _ h1 h2 => Nat.le_trans h2 h1⟩

/-- Mirrors the `on_notification_saved` post-save hook: select the
notifications of the user ordered by creation time descending, skip the
first MAX_PER_USER, and delete each remaining row by primary key. -/
def on_notification_saved (db : NotificationTable) (uid : Nat) :
    NotificationTable :=
  let old := (List.insertionSort created_desc
    (db.filter (fun n => n.user = uid))).drop MAX_PER_USER
  db.filter (fun n => !(old.any (fun o => o.id = n.id)))

/-- Mirrors `Notification.send` followed by the post-save hook: insert
one row (viewed defaults to false), then trim the recipient to the cap. -/
def send (db : NotificationTable) (nid uid kind : Nat) (message : String)
    (related_id : Option Nat) (action_url : Option String) (created : Nat) :
    NotificationTable :=
  on_notification_saved
    (db ++ [⟨nid, uid, created, kind, message, related_id, action_url, false⟩])
    uid

/-- Outcome of one junit test case: `case.result is None` in the source
means the case passed; a failing case carries the attribute items of the
result element and its text (the staff diagnostic). -/
inductive CaseResult where
  | passed
  | failed (items : List (String × String)) (text : String)
deriving DecidableEq, Repr

/-- One junit test case as iterated by `_handle_test_suite`. -/
structure TestCase where
  name : String
  result : CaseResult
deriving DecidableEq, Repr

/-- One junit test suite: the list of its cases. -/
abbrev TestSuite := List TestCase

/-- The raw report handed to `_populate_junit_results`: falsy (None or
the empty string), non-empty text junitparser cannot parse (where
`TestSuite.fromstring` raises), or a parsed list of suites. -/
inductive RawReport where
  | empty
  | malformed (text : String)
  | parsed (suites : List TestSuite)
deriving DecidableEq, Repr

/-- Mirrors `ExerciseTestName.FATAL_TEST_NAME`, the reserved synthetic
check name. -/
def FATAL_TEST_NAME : String := "fatal_test_failure"

/-- One row created by
`SolutionExerciseTestExecution.create_execution_result`. -/
structure ExecutionResultRow where
  solution : Nat
  test_name : String
  user_message : String
  staff_message : String
deriving DecidableEq, Repr

/-- One notification emitted through `notifications.send` by the
ingestor (kind UNITTEST_ERROR, recipient the solver). -/
structure SentNotification where
  user : Nat
  related_id : Nat
  message : String
deriving DecidableEq, Repr

/-- Mirrors the removal of newline characters from each attribute value
of the failure payload (`replace` of the newline with the empty
string). -/
def strip_newlines (s : String) : String :=
  String.mk (s.data.filter (fun ch => ch ≠ '\n'))

/-- Mirrors the space-join of the flattened result attribute values that
builds the learner-facing failure message. -/
def flatten_items (items : List (String × String)) : String :=
  String.intercalate " " (items.map (fun p => strip_newlines p.2))

/-- Learner-facing message of the fatal-execution-failure branch (the
Hebrew literal of the source). -/
def fatal_user_message : String := "הבודק האוטומטי לא הצליח להריץ את הקוד שלך."

/-- Staff-facing message of the fatal-execution-failure branch. -/
def fatal_staff_message : String := "אחי, בדקת את הקוד שלך?"

/-- Mirrors the gettext failure summary naming the failure count and the
exercise subject. -/
def unit_test_fail_message (number : Nat) (subject : String) : String :=
  "הבודק האוטומטי נכשל ב־ " ++ toString number ++ " דוגמאות בתרגיל " ++ subject

/-- One iteration of the case loop of `_handle_test_suite`: mark that
tests ran; on a failing case increment the failure count and create one
execution result row. -/
def handle_case (sid : Nat) (acc : Nat × Bool × List ExecutionResultRow)
    (tc : TestCase) : Nat × Bool × List ExecutionResultRow :=
  match tc.result with
  | CaseResult.passed => (acc.1, true, acc.2.2)
  | CaseResult.failed items text =>
      (acc.1 + 1, true, acc.2.2 ++ [⟨sid, tc.name, flatten_items items, text⟩])

/-- Mirrors `_handle_test_suite`: iterate the cases of one suite,
returning (number of failures, tests ran) together with the created
rows. -/
def handle_test_suite (sid : Nat) (suite : TestSuite) :
    Nat × Bool × List ExecutionResultRow :=
  suite.foldl (handle_case sid) (0, false, [])

/-- One iteration of the suite loop of `_populate_junit_results`: add
the per-suite failure count, remember whether any case ran, and collect
the created rows. -/
def handle_suites_step (sid : Nat) (acc : Nat × Bool × List ExecutionResultRow)
    (suite : TestSuite) : Nat × Bool × List ExecutionResultRow :=
  (acc.1 + (handle_test_suite sid suite).1,
   acc.2.1 || (handle_test_suite sid suite).2.1,
   acc.2.2 ++ (handle_test_suite sid suite).2.2)

/-- Helper predicate: a failing case. -/
def is_failed_case (tc : TestCase) : Bool :=
  match tc.result with
  | CaseResult.passed => false
  | CaseResult.failed _ _ => true

/-- The execution result row created for one failing case. -/
def failed_case_row (sid : Nat) (tc : TestCase) : ExecutionResultRow :=
  match tc.result with
  | CaseResult.passed => ⟨sid, tc.name, "", ""⟩
  | CaseResult.failed items text => ⟨sid, tc.name, flatten_items items, text⟩

/-- Mirrors `_populate_junit_results`: parse the raw report (an
unparseable non-empty report raises, modelled as `Except.error`; a falsy
report yields no suites), accumulate per-suite failures and whether any
case ran, route a run with no executed case to
`_handle_failed_to_execute_tests` (one synthetic execution result plus
one notification), and otherwise notify the solver exactly when the
failure count is nonzero.  Returns the created execution result rows and
the sent notifications. -/
def populate_junit_results (sid solver : Nat) (subject : String)
    (report : RawReport) :
    Except Unit (List ExecutionResultRow × List SentNotification) :=
  match report with
  | RawReport.malformed _ => Except.error ()
  | _ =>
    let suites : List TestSuite :=
      match report with
      | RawReport.parsed s => s
      | _ => []
    let acc := suites.foldl (handle_suites_step sid)
      (0, false, ([] : List ExecutionResultRow))
    let (number_of_failures, tests_ran, rows) := acc
    if !tests_ran then
      Except.ok
        (rows ++ [⟨sid, FATAL_TEST_NAME, fatal_user_message,
          fatal_staff_message⟩],
         [⟨solver, sid, fatal_user_message⟩])
    else if number_of_failures = 0 then
      Except.ok (rows, [])
    else
      Except.ok (rows,
        [⟨solver, sid, unit_test_fail_message number_of_failures subject⟩])

/-! ### Helper lemmas about the state machine and the superseder -/

theorem mark_old_idem (s : SolutionRow) : mark_old (mark_old s) = mark_old s := rfl

theorem mark_old_id (s : SolutionRow) : (mark_old s).id = s.id := rfl

theorem set_state_fst (db : SolutionTable) (sid : Nat) (st : SolutionState) :
    (set_state db sid st).1
      = db.map (fun s => if s.id = sid then { s with state := st } else s) := rfl

/-- Filtering commutes with mapping a function that preserves the
filter predicate. -/
theorem filter_map_comm {α : Type} {F : α → α} {p : α → Bool}
    (hinv : ∀ s, p (F s) = p s) (l : List α) :
    (l.map F).filter p = (l.filter p).map F := by
  induction l with
  | nil => rfl
  | cons x xs ih =>
      simp only [List.map_cons, List.filter_cons, hinv x]
      cases hp : p x
      · simpa [hp] using ih
      · simpa [hp] using ih

/-- The superseder loop of `create_solution`, a fold of per-row
`set_state` updates, acts as one map over the table: a row is marked
OLD_SOLUTION exactly when its id occurs among the selected rows. -/
theorem foldl_mark_old (others : List SolutionRow) (db : SolutionTable) :
    others.foldl
        (fun acc old => (set_state acc old.id SolutionState.OLD_SOLUTION).1) db
      = db.map
          (fun s => if others.any (fun o => o.id = s.id) then mark_old s else s) := by
  induction others generalizing db with
  | nil => simp
  | cons o rest ih =>
      rw [List.foldl_cons, ih, set_state_fst, List.map_map]
      congr 1
      funext s
      by_cases h : s.id = o.id
      · have h2 : o.id = s.id := h.symm
        simp only [Function.comp_apply, if_pos h]
        have hmark : ({ s with state := SolutionState.OLD_SOLUTION } :
            SolutionRow) = mark_old s := rfl
        rw [hmark]
        simp [mark_old, h2]
      · have h2 : ¬ o.id = s.id := fun hh => h hh.symm
        simp only [Function.comp_apply, if_neg h]
        simp [h2]

/-- Unfolding of `create_solution` through `foldl_mark_old`. -/
theorem create_solution_eq (db : SolutionTable) (i e u t : Nat) (j : String) :
    create_solution db i e u t j
      = (db ++ [new_solution_row i e u t j]).map
          (fun s =>
            if ((db ++ [new_solution_row i e u t j]).filter
                (fun s2 => s2.exercise = e ∧ s2.solver = u ∧ s2.id ≠ i)).any
                (fun o => o.id = s.id)
            then mark_old s else s) := by
  unfold create_solution new_solution_row
  exact foldl_mark_old _ _

/-- Every row of `create_solution` is an old row or the inserted row,
kept as it was or marked OLD_SOLUTION. -/
theorem mem_create_solution {db : SolutionTable} {i e u t : Nat} {j : String}
    {s : SolutionRow} (hs : s ∈ create_solution db i e u t j) :
    ∃ s0, (s0 ∈ db ∨ s0 = new_solution_row i e u t j) ∧
      (s = s0 ∨ s = mark_old s0) := by
  rw [create_solution_eq] at hs
  obtain ⟨s0, hmem, heq⟩ := List.mem_map.mp hs
  refine ⟨s0, by simpa using hmem, ?_⟩
  by_cases h : ((db ++ [new_solution_row i e u t j]).filter
      (fun s2 => s2.exercise = e ∧ s2.solver = u ∧ s2.id ≠ i)).any
      (fun o => o.id = s0.id)
  · right; rw [if_pos h] at heq; exact heq.symm
  · left; rw [if_neg h] at heq; exact heq.symm

/-- Ids of the rows of `create_solution`: an old id or the new id. -/
theorem id_of_mem_create_solution {db : SolutionTable} {i e u t : Nat}
    {j : String} {s : SolutionRow} (hs : s ∈ create_solution db i e u t j) :
    (∃ s0 ∈ db, s.id = s0.id) ∨ s.id = i := by
  obtain ⟨s0, hor, hcase⟩ := mem_create_solution hs
  have hid : s.id = s0.id := by
    rcases hcase with h | h
    · rw [h]
    · rw [h, mark_old_id]
  rcases hor with h0 | h0
  · exact Or.inl ⟨s0, h0, hid⟩
  · right; rw [hid, h0]; rfl

/-- Action of `create_solution` on the rows of its own (exercise,
solver) pair: every previous row of the pair is marked OLD_SOLUTION and
the new CREATED row is appended. -/
theorem pair_rows_create_solution (db : SolutionTable) (i e u t : Nat)
    (j : String) (hfresh : ∀ s ∈ db, s.id ≠ i) :
    pair_rows (create_solution db i e u t j) e u
      = (pair_rows db e u).map mark_old ++ [new_solution_row i e u t j] := by
  rw [create_solution_eq]
  unfold pair_rows
  rw [filter_map_comm (fun s => by split <;> rfl)]
  set others := (db ++ [new_solution_row i e u t j]).filter
      (fun s2 => s2.exercise = e ∧ s2.solver = u ∧ s2.id ≠ i) with hothers
  rw [List.filter_append]
  have hnew : ([new_solution_row i e u t j] :
      SolutionTable).filter (fun s => s.exercise = e ∧ s.solver = u)
        = [new_solution_row i e u t j] := by
    simp [new_solution_row]
  rw [hnew, List.map_append]
  congr 1
  · apply List.map_congr_left
    intro s hsmem
    have hpair := List.of_mem_filter hsmem
    have hsdb : s ∈ db := List.mem_of_mem_filter hsmem
    have hcond : others.any (fun o => o.id = s.id) = true := by
      rw [hothers, List.any_eq_true]
      refine ⟨s, ?_, by simp⟩
      rw [List.mem_filter]
      refine ⟨List.mem_append_left _ hsdb, ?_⟩
      have hp : s.exercise = e ∧ s.solver = u := by simpa using hpair
      simp [hp.1, hp.2, hfresh s hsdb]
    rw [if_pos hcond]
  · have hcond : others.any
        (fun o => o.id = (new_solution_row i e u t j).id) = false := by
      rw [hothers, List.any_eq_false]
      intro o homem
      have hq := List.of_mem_filter homem
      simp only [decide_eq_true_eq] at hq
      simp [new_solution_row, hq.2.2]
    simp only [List.map_cons, List.map_nil]
    rw [if_neg (by simp [hcond])]

/-- C1, counterexample: `start_checking` is not a compare-and-set.  On a
solution whose state is DONE (no longer CREATED) the call still reports
one updated row (returns true) and overwrites the state with
IN_CHECKING; and a second caller after a successful first call also
observes success instead of a rejected update. -/
theorem claim_C1_counterexample :
    start_checking [⟨1, 1, 1, SolutionState.DONE, 0, ""⟩] 1
      = ([⟨1, 1, 1, SolutionState.IN_CHECKING, 0, ""⟩], true) ∧
    (start_checking
      (start_checking [⟨2, 2, 2, SolutionState.CREATED, 0, ""⟩] 2).1 2).2
      = true := by
  decide

/-- C1, amended: `start_checking` performs an unconditional update
scoped only by solution id.  Whenever the table holds exactly one row
with the requested id, the call reports success and sets that row to
IN_CHECKING regardless of its previous state; consequently a second
caller against the same solution also observes success rather than a
rejected compare-and-set. -/
theorem claim_C1 (db : SolutionTable) (sid : Nat)
    (h : (db.filter (fun s => s.id = sid)).length = 1) :
    (start_checking db sid).2 = true ∧
    (∀ s ∈ (start_checking db sid).1, s.id = sid →
      s.state = SolutionState.IN_CHECKING) ∧
    (start_checking (start_checking db sid).1 sid).2 = true := by
  refine ⟨by simp [start_checking, set_state, h], ?_, ?_⟩
  · intro s hs hid
    simp only [start_checking, set_state_fst] at hs
    obtain ⟨s0, hmem, heq⟩ := List.mem_map.mp hs
    by_cases h0 : s0.id = sid
    · rw [if_pos h0] at heq; rw [← heq]
    · rw [if_neg h0] at heq; rw [← heq] at hid; exact absurd hid h0
  · have hfil : (start_checking db sid).1.filter (fun s => s.id = sid)
        = (db.filter (fun s => s.id = sid)).map
            (fun s => if s.id = sid
              then { s with state := SolutionState.IN_CHECKING } else s) :=
      filter_map_comm (fun s => by split <;> rfl) db
    have hlen : ((start_checking db sid).1.filter
        (fun s => s.id = sid)).length = 1 := by
      rw [hfil, List.length_map, h]
    show decide (((start_checking db sid).1.filter
      (fun s => s.id = sid)).length = 1) = true
    simpa using hlen

/-- C1, witness: the amended theorem applied to a one-row table. -/
theorem claim_C1_witness :
    (start_checking [⟨5, 1, 1, SolutionState.CREATED, 0, ""⟩] 5).2 = true ∧
    (⟨5, 1, 1, SolutionState.IN_CHECKING, 0, ""⟩ : SolutionRow).state
      = SolutionState.IN_CHECKING ∧
    (start_checking
      (start_checking [⟨5, 1, 1, SolutionState.CREATED, 0, ""⟩] 5).1 5).2
      = true := by
  have h := claim_C1 [⟨5, 1, 1, SolutionState.CREATED, 0, ""⟩] 5 (by decide)
  exact ⟨h.1,
    h.2.1 ⟨5, 1, 1, SolutionState.IN_CHECKING, 0, ""⟩ (by decide) rfl, h.2.2⟩

/-- C2, counterexample: DONE is not terminal.  The version superseder
loop of `create_solution` selects every other solution of the pair with
no state filter, so a DONE solution is moved to OLD_SOLUTION by the next
submission of the same pair. -/
theorem claim_C2_counterexample :
    (⟨1, 1, 1, SolutionState.DONE, 0, ""⟩ : SolutionRow).state
      = SolutionState.DONE ∧
    create_solution [⟨1, 1, 1, SolutionState.DONE, 0, ""⟩] 2 1 1 5 ""
      = [⟨1, 1, 1, SolutionState.OLD_SOLUTION, 0, ""⟩,
         ⟨2, 1, 1, SolutionState.CREATED, 5, ""⟩] := by
  decide

/-- C2, amended: of the two states only OLD_SOLUTION is preserved by the
operations, and only because the superseder rewrites it with the same
value: a solution already in OLD_SOLUTION still holds OLD_SOLUTION after
any `create_solution`.  DONE is not terminal (see the counterexample),
and `set_state` itself overwrites any state unconditionally. -/
theorem claim_C2 (db : SolutionTable) (i e u t k : Nat) (j : String)
    (hik : i ≠ k)
    (hold : ∀ s ∈ db, s.id = k → s.state = SolutionState.OLD_SOLUTION) :
    ∀ s ∈ create_solution db i e u t j, s.id = k →
      s.state = SolutionState.OLD_SOLUTION := by
  intro s hs hk
  obtain ⟨s0, hor, hcase⟩ := mem_create_solution hs
  rcases hcase with hc | hc
  · rcases hor with h0 | h0
    · rw [hc]; exact hold s0 h0 (by rw [← hc]; exact hk)
    · rw [hc, h0] at hk
      exact absurd hk hik
  · rw [hc]; rfl

/-- C2, witness: the amended theorem applied to a table holding one
OLD_SOLUTION row of the pair. -/
theorem claim_C2_witness :
    (⟨1, 1, 1, SolutionState.OLD_SOLUTION, 0, ""⟩ : SolutionRow).state
      = SolutionState.OLD_SOLUTION :=
  claim_C2 [⟨1, 1, 1, SolutionState.OLD_SOLUTION, 0, ""⟩] 2 1 1 5 1 ""
    (by decide) (by decide)
    ⟨1, 1, 1, SolutionState.OLD_SOLUTION, 0, ""⟩ (by decide) rfl

theorem superseded_rows_filter_active (e u : Nat) (l : List (Nat × Nat)) :
    (l.map (superseded_row e u)).filter (fun s => s.state.isActive) = [] := by
  induction l with
  | nil => rfl
  | cons c rest ih => simpa [superseded_row, SolutionState.isActive] using ih

theorem superseded_rows_filter_old (e u : Nat) (l : List (Nat × Nat)) :
    (l.map (superseded_row e u)).filter
      (fun s => s.state = SolutionState.OLD_SOLUTION) = l.map (superseded_row e u) := by
  induction l with
  | nil => rfl
  | cons c rest ih => simpa [superseded_row] using ih

/-- Characterization of N sequential `create_solution` calls of one
pair: previously existing pair rows end up marked OLD_SOLUTION, all but
the last call leave one OLD_SOLUTION row each, and the last call leaves
the one CREATED row. -/
theorem pair_rows_apply_creates (e u : Nat) :
    ∀ (calls : List (Nat × Nat)) (db : SolutionTable) (hne : calls ≠ []),
      (∀ c ∈ calls, ∀ s ∈ db, s.id ≠ c.1) →
      (calls.map Prod.fst).Nodup →
      pair_rows (apply_creates e u db calls) e u
        = (pair_rows db e u).map mark_old
          ++ calls.dropLast.map (superseded_row e u)
          ++ [new_solution_row (calls.getLast hne).1 e u
                (calls.getLast hne).2 ""] := by
  intro calls
  induction calls with
  | nil => intro db hne; exact absurd rfl hne
  | cons c rest ih =>
      intro db hne hfresh hnodup
      obtain ⟨i, t⟩ := c
      cases rest with
      | nil =>
          show pair_rows (create_solution db i e u t "") e u = _
          rw [pair_rows_create_solution db i e u t ""
            (fun s hs => hfresh (i, t) (by simp) s hs)]
          simp
      | cons c2 rs =>
          have hne2 : c2 :: rs ≠ [] := by simp
          have hfresh2 : ∀ d ∈ c2 :: rs, ∀ s ∈ create_solution db i e u t "",
              s.id ≠ d.1 := by
            intro d hd s hs
            rcases id_of_mem_create_solution hs with ⟨s0, hs0, hid⟩ | hid
            · rw [hid]; exact hfresh d (List.mem_cons_of_mem _ hd) s0 hs0
            · rw [hid]
              have hnotin : i ∉ (c2 :: rs).map Prod.fst :=
                (List.nodup_cons.mp hnodup).1
              intro hcontra
              exact hnotin (hcontra ▸ List.mem_map_of_mem Prod.fst hd)
          have hnodup2 : ((c2 :: rs).map Prod.fst).Nodup :=
            (List.nodup_cons.mp hnodup).2
          show pair_rows (apply_creates e u (create_solution db i e u t "")
            (c2 :: rs)) e u = _
          rw [ih (create_solution db i e u t "") hne2 hfresh2 hnodup2]
          rw [pair_rows_create_solution db i e u t ""
            (fun s hs => hfresh (i, t) (by simp) s hs)]
          rw [List.map_append, List.map_map]
          have hmm : mark_old ∘ mark_old = mark_old := funext mark_old_idem
          rw [hmm]
          have hlastrow : (List.map mark_old [new_solution_row i e u t ""])
              = [superseded_row e u (i, t)] := rfl
          rw [hlastrow]
          have hdrop : ((i, t) :: c2 :: rs).dropLast
              = (i, t) :: (c2 :: rs).dropLast := rfl
          have hlast : (((i, t) :: c2 :: rs).getLast hne)
              = ((c2 :: rs).getLast hne2) := List.getLast_cons hne2
          rw [hdrop, hlast, List.map_cons]
          simp [List.append_assoc]

/-- C3 (confirmed): starting from a store with no solution of the
(exercise, learner) pair, after N sequential `create_solution` calls
with fresh distinct ids the pair holds exactly N solutions: the newest
one is CREATED (hence in the active set {CREATED, IN_CHECKING, DONE})
and the other N-1 are OLD_SOLUTION. -/
theorem claim_C3 (db : SolutionTable) (e u : Nat) (calls : List (Nat × Nat))
    (hne : calls ≠ [])
    (hpair : pair_rows db e u = [])
    (hfresh : ∀ c ∈ calls, ∀ s ∈ db, s.id ≠ c.1)
    (hnodup : (calls.map Prod.fst).Nodup) :
    pair_rows (apply_creates e u db calls) e u
      = calls.dropLast.map (superseded_row e u)
        ++ [new_solution_row (calls.getLast hne).1 e u
              (calls.getLast hne).2 ""] ∧
    (pair_rows (apply_creates e u db calls) e u).length = calls.length ∧
    ((pair_rows (apply_creates e u db calls) e u).filter
      (fun s => s.state.isActive)).length = 1 ∧
    ((pair_rows (apply_creates e u db calls) e u).filter
      (fun s => s.state = SolutionState.OLD_SOLUTION)).length
      = calls.length - 1 := by
  have h := pair_rows_apply_creates e u calls db hne hfresh hnodup
  rw [hpair] at h
  simp only [List.map_nil, List.nil_append] at h
  have hlenpos : 0 < calls.length := List.length_pos.mpr hne
  refine ⟨h, ?_, ?_, ?_⟩
  · rw [h, List.length_append, List.length_map, List.length_dropLast]
    simp
    omega
  · rw [h, List.filter_append, superseded_rows_filter_active]
    simp [new_solution_row, SolutionState.isActive]
  · rw [h, List.filter_append, superseded_rows_filter_old]
    simp [new_solution_row, List.length_dropLast]

/-- C3, witness: three sequential submissions of one pair into an empty
store leave two OLD_SOLUTION rows and one CREATED row. -/
theorem claim_C3_witness :
    pair_rows (apply_creates 1 1 [] [(1, 0), (2, 1), (3, 2)]) 1 1
      = [⟨1, 1, 1, SolutionState.OLD_SOLUTION, 0, ""⟩,
         ⟨2, 1, 1, SolutionState.OLD_SOLUTION, 1, ""⟩,
         ⟨3, 1, 1, SolutionState.CREATED, 2, ""⟩] ∧
    (pair_rows (apply_creates 1 1 [] [(1, 0), (2, 1), (3, 2)]) 1 1).length = 3 ∧
    ((pair_rows (apply_creates 1 1 [] [(1, 0), (2, 1), (3, 2)]) 1 1).filter
      (fun s => s.state.isActive)).length = 1 ∧
    ((pair_rows (apply_creates 1 1 [] [(1, 0), (2, 1), (3, 2)]) 1 1).filter
      (fun s => s.state = SolutionState.OLD_SOLUTION)).length = 2 := by
  have h := claim_C3 [] 1 1 [(1, 0), (2, 1), (3, 2)] (by decide) rfl
    (by intro c hc s hs; cases hs) (by decide)
  exact ⟨h.1, h.2.1, h.2.2.1, h.2.2.2⟩

/-! ### Helper lemmas about the review queue selector -/

theorem key_lt_irrefl (a : Nat × Nat × Nat) : key_lt a a = false := by
  simp [key_lt]

theorem key_lt_trans {a b c : Nat × Nat × Nat} (h1 : key_lt a b = true)
    (h2 : key_lt b c = true) : key_lt a c = true := by
  simp only [key_lt, decide_eq_true_eq] at *
  omega

theorem key_lt_false_trans {a b c : Nat × Nat × Nat} (h1 : key_lt a b = false)
    (h2 : key_lt b c = false) : key_lt a c = false := by
  simp only [key_lt, decide_eq_false_iff_not] at *
  omega

theorem key_lt_false_shift {a b c : Nat × Nat × Nat}
    (h1 : key_lt a c = false) (h2 : key_lt a b = true) :
    key_lt b c = false := by
  simp only [key_lt, decide_eq_true_eq, decide_eq_false_iff_not] at *
  omega

theorem better_of_none (key : SolutionRow → Nat × Nat × Nat)
    (s : SolutionRow) : better_of key none s = some s := rfl

theorem better_of_some (key : SolutionRow → Nat × Nat × Nat)
    (b s : SolutionRow) :
    better_of key (some b) s
      = if key_lt (key s) (key b) then some s else some b := rfl

/-- Invariant of the ordered scan: starting from a current best row, the
fold returns a row of the seen prefix that no seen row strictly beats. -/
theorem first_by_rank_go (key : SolutionRow → Nat × Nat × Nat) :
    ∀ (l : List SolutionRow) (b : SolutionRow),
      ∃ s, l.foldl (better_of key) (some b) = some s ∧ (s = b ∨ s ∈ l) ∧
        ∀ y, (y = b ∨ y ∈ l) → key_lt (key y) (key s) = false := by
  intro l
  induction l with
  | nil =>
      intro b
      refine ⟨b, rfl, Or.inl rfl, ?_⟩
      intro y hy
      rcases hy with h | h
      · rw [h]; exact key_lt_irrefl _
      · cases h
  | cons x xs ih =>
      intro b
      rw [List.foldl_cons]
      by_cases hxb : key_lt (key x) (key b) = true
      · rw [better_of_some, if_pos hxb]
        obtain ⟨s, hfold, hmem, hmin⟩ := ih x
        refine ⟨s, hfold, ?_, ?_⟩
        · rcases hmem with h | h
          · exact Or.inr (h ▸ List.mem_cons_self x xs)
          · exact Or.inr (List.mem_cons_of_mem x h)
        · intro y hy
          rcases hy with h | h
          · rw [h]
            exact key_lt_false_shift (hmin x (Or.inl rfl)) hxb
          · rcases List.mem_cons.mp h with h2 | h2
            · rw [h2]; exact hmin x (Or.inl rfl)
            · exact hmin y (Or.inr h2)
      · have hxb2 : key_lt (key x) (key b) = false :=
          Bool.eq_false_iff.mpr hxb
        rw [better_of_some, if_neg hxb]
        obtain ⟨s, hfold, hmem, hmin⟩ := ih b
        refine ⟨s, hfold, ?_, ?_⟩
        · rcases hmem with h | h
          · exact Or.inl h
          · exact Or.inr (List.mem_cons_of_mem x h)
        · intro y hy
          rcases hy with h | h
          · exact hmin y (Or.inl h)
          · rcases List.mem_cons.mp h with h2 | h2
            · rw [h2]
              exact key_lt_false_trans hxb2 (hmin b (Or.inl rfl))
            · exact hmin y (Or.inr h2)

/-- The ordered query yields no row exactly when the filtered set is
empty. -/
theorem first_by_rank_eq_none (key : SolutionRow → Nat × Nat × Nat)
    (l : List SolutionRow) : first_by_rank key l = none ↔ l = [] := by
  cases l with
  | nil => simp [first_by_rank]
  | cons x xs =>
      obtain ⟨s, hfold, _, _⟩ := first_by_rank_go key xs x
      unfold first_by_rank
      rw [List.foldl_cons, better_of_none, hfold]
      simp

/-- The returned row belongs to the scanned list and no scanned row has
a strictly smaller key. -/
theorem first_by_rank_mem_min (key : SolutionRow → Nat × Nat × Nat)
    {l : List SolutionRow} {s : SolutionRow}
    (h : first_by_rank key l = some s) :
    s ∈ l ∧ ∀ y ∈ l, key_lt (key y) (key s) = false := by
  cases l with
  | nil => simp [first_by_rank] at h
  | cons x xs =>
      obtain ⟨s2, hfold, hmem, hmin⟩ := first_by_rank_go key xs x
      unfold first_by_rank at h
      rw [List.foldl_cons, better_of_none, hfold] at h
      injection h with h2
      subst h2
      constructor
      · rcases hmem with h2 | h2
        · exact h2 ▸ List.mem_cons_self x xs
        · exact List.mem_cons_of_mem x h2
      · intro y hy
        rcases List.mem_cons.mp hy with h2 | h2
        · exact hmin y (Or.inl h2)
        · exact hmin y (Or.inr h2)

/-- Count of a flat-mapped list when every block has the same count. -/
theorem countP_flatMap_const {α β : Type} (l : List α) (g : α → List β)
    (p : β → Bool) (k : Nat) (h : ∀ x ∈ l, (g x).countP p = k) :
    (l.flatMap g).countP p = l.length * k := by
  induction l with
  | nil => simp
  | cons x xs ih =>
      rw [List.flatMap_cons, List.countP_append, h x (List.mem_cons_self x xs),
        ih (fun y hy => h y (List.mem_cons_of_mem x hy)), List.length_cons]
      ring

/-- The comment COUNT of `_base_next_unchecked` is inflated by the
second left join: it equals the true comment count multiplied by the
failure count whenever the latter is nonzero. -/
theorem comments_count_eq (cs : List CommentRow) (es : List TestExecutionRow)
    (s : SolutionRow) :
    comments_count cs es s
      = spec_comment_count cs s * max (spec_failure_count es s) 1 := by
  simp only [comments_count, joined_rows, spec_comment_count,
    spec_failure_count]
  generalize (cs.filter (fun c => c.solution = s.id)) = cM
  generalize (es.filter (fun e => e.solution = s.id)) = eM
  cases cM with
  | nil =>
      cases eM with
      | nil => simp
      | cons e el =>
          rw [if_pos rfl]
          simp only [List.flatMap_cons, List.flatMap_nil, List.append_nil]
          rw [if_neg (List.cons_ne_nil e el), List.countP_map]
          rw [List.countP_eq_zero.mpr (fun a _ => by simp [Function.comp])]
          simp
  | cons c cl =>
      cases eM with
      | nil =>
          rw [if_neg (List.cons_ne_nil c cl)]
          have h1 : ∀ x ∈ (c :: cl).map some,
              ((if ([] : List TestExecutionRow) = []
                then [(x, (none : Option TestExecutionRow))]
                else ([] : List TestExecutionRow).map
                  (fun e => (x, some e))).countP
                  (fun r => r.1.isSome)) = 1 := by
            intro x hx
            obtain ⟨c2, _, rfl⟩ := List.mem_map.mp hx
            simp
          rw [countP_flatMap_const _ _ _ 1 h1, List.length_map]
          simp
      | cons e el =>
          rw [if_neg (List.cons_ne_nil c cl)]
          simp only [if_neg (List.cons_ne_nil e el)]
          have h1 : ∀ x ∈ (c :: cl).map some,
              (((e :: el).map (fun e2 => (x, some e2))).countP
                (fun r => r.1.isSome)) = (e :: el).length := by
            intro x hx
            obtain ⟨c2, _, rfl⟩ := List.mem_map.mp hx
            rw [List.countP_map]
            exact List.countP_eq_length.mpr (fun a _ => rfl)
          rw [countP_flatMap_const _ _ _ _ h1, List.length_map]
          have hpos : 0 < (e :: el).length :=
            List.length_pos.mpr (List.cons_ne_nil e el)
          rw [Nat.max_eq_left hpos]

/-- The failures COUNT of `_base_next_unchecked` is likewise inflated:
it equals the true failure count multiplied by the comment count
whenever the latter is nonzero. -/
theorem failures_count_eq (cs : List CommentRow) (es : List TestExecutionRow)
    (s : SolutionRow) :
    failures_count cs es s
      = spec_failure_count es s * max (spec_comment_count cs s) 1 := by
  simp only [failures_count, joined_rows, spec_comment_count,
    spec_failure_count]
  generalize (cs.filter (fun c => c.solution = s.id)) = cM
  generalize (es.filter (fun e => e.solution = s.id)) = eM
  cases cM with
  | nil =>
      cases eM with
      | nil => simp
      | cons e el =>
          rw [if_pos rfl]
          simp only [List.flatMap_cons, List.flatMap_nil, List.append_nil]
          rw [if_neg (List.cons_ne_nil e el), List.countP_map]
          have hall : List.countP
              ((fun r : Option CommentRow × Option TestExecutionRow =>
                r.2.isSome) ∘ fun e2 => ((none : Option CommentRow), some e2))
              (e :: el) = (e :: el).length :=
            List.countP_eq_length.mpr (fun a _ => rfl)
          rw [hall]
          simp
  | cons c cl =>
      cases eM with
      | nil =>
          rw [if_neg (List.cons_ne_nil c cl)]
          have h1 : ∀ x ∈ (c :: cl).map some,
              ((if ([] : List TestExecutionRow) = []
                then [(x, (none : Option TestExecutionRow))]
                else ([] : List TestExecutionRow).map
                  (fun e => (x, some e))).countP
                  (fun r => r.2.isSome)) = 0 := by
            intro x hx
            obtain ⟨c2, _, rfl⟩ := List.mem_map.mp hx
            simp
          rw [countP_flatMap_const _ _ _ 0 h1]
          simp
      | cons e el =>
          rw [if_neg (List.cons_ne_nil c cl)]
          simp only [if_neg (List.cons_ne_nil e el)]
          have h1 : ∀ x ∈ (c :: cl).map some,
              (((e :: el).map (fun e2 => (x, some e2))).countP
                (fun r => r.2.isSome)) = (e :: el).length := by
            intro x hx
            obtain ⟨c2, _, rfl⟩ := List.mem_map.mp hx
            rw [List.countP_map]
            exact List.countP_eq_length.mpr (fun a _ => rfl)
          rw [countP_flatMap_const _ _ _ _ h1, List.length_map]
          have hpos : 0 < (c :: cl).length :=
            List.length_pos.mpr (List.cons_ne_nil c cl)
          rw [Nat.max_eq_left hpos, Nat.mul_comm]

/-- C4, counterexample: the selector does not order by the true comment
count.  The query left-joins Comment and TestExecutionResult at once and
COUNTs over the cross product, so with solution 1 carrying 1 comment and
5 failures and solution 2 carrying 2 comments and 1 failure the code
returns solution 2, while the three-key order of the claim (fewest
actual Comment rows first) picks solution 1. -/
theorem claim_C4_counterexample :
    next_unchecked
      [⟨1, 1, 1, SolutionState.CREATED, 0, ""⟩,
       ⟨2, 1, 2, SolutionState.CREATED, 1, ""⟩]
      [⟨1, 1⟩, ⟨2, 2⟩, ⟨3, 2⟩]
      [⟨1, 1⟩, ⟨2, 1⟩, ⟨3, 1⟩, ⟨4, 1⟩, ⟨5, 1⟩, ⟨6, 2⟩]
      = some ⟨2, 1, 2, SolutionState.CREATED, 1, ""⟩ ∧
    spec_next_unchecked
      [⟨1, 1, 1, SolutionState.CREATED, 0, ""⟩,
       ⟨2, 1, 2, SolutionState.CREATED, 1, ""⟩]
      [⟨1, 1⟩, ⟨2, 2⟩, ⟨3, 2⟩]
      [⟨1, 1⟩, ⟨2, 1⟩, ⟨3, 1⟩, ⟨4, 1⟩, ⟨5, 1⟩, ⟨6, 2⟩]
      = some ⟨1, 1, 1, SolutionState.CREATED, 0, ""⟩ ∧
    spec_comment_count [⟨1, 1⟩, ⟨2, 2⟩, ⟨3, 2⟩]
      ⟨1, 1, 1, SolutionState.CREATED, 0, ""⟩ = 1 ∧
    spec_comment_count [⟨1, 1⟩, ⟨2, 2⟩, ⟨3, 2⟩]
      ⟨2, 1, 2, SolutionState.CREATED, 1, ""⟩ = 2 := by
  decide

/-- C4, amended: the selector returns none exactly when no CREATED
solution exists, and otherwise returns a CREATED solution minimal under
the three-key ascending order of the join-inflated counts, whose closed
form is (c * max f 1, f * max c 1, timestamp) for true comment count c
and true failure count f; the scoped variant behaves the same within
one exercise.  The claimed order on true counts holds only up to this
inflation (see the counterexample); the concrete {2,0,1}/{0,0,3}
instance of the claim is still returned correctly (see the witness). -/
theorem claim_C4 (db : SolutionTable) (cs : List CommentRow)
    (es : List TestExecutionRow) :
    (next_unchecked db cs es = none ↔
      db.filter (fun s => s.state = SolutionState.CREATED) = []) ∧
    (∀ s, next_unchecked db cs es = some s →
      s ∈ db ∧ s.state = SolutionState.CREATED ∧
      ∀ y ∈ db, y.state = SolutionState.CREATED →
        key_lt (rank_key cs es y) (rank_key cs es s) = false) ∧
    (∀ eid, (next_unchecked_of db cs es eid = none ↔
      (db.filter (fun s => s.state = SolutionState.CREATED)).filter
        (fun s => s.exercise = eid) = []) ∧
      ∀ s, next_unchecked_of db cs es eid = some s →
        s ∈ db ∧ s.state = SolutionState.CREATED ∧ s.exercise = eid ∧
        ∀ y ∈ db, y.state = SolutionState.CREATED → y.exercise = eid →
          key_lt (rank_key cs es y) (rank_key cs es s) = false) ∧
    (∀ s, rank_key cs es s =
      (spec_comment_count cs s * max (spec_failure_count es s) 1,
       spec_failure_count es s * max (spec_comment_count cs s) 1,
       s.submission_timestamp)) := by
  refine ⟨?_, ?_, ?_, ?_⟩
  · exact first_by_rank_eq_none _ _
  · intro s hs
    obtain ⟨hmem, hmin⟩ := first_by_rank_mem_min _ hs
    refine ⟨List.mem_of_mem_filter hmem, ?_, ?_⟩
    · have := List.of_mem_filter hmem
      simpa using this
    · intro y hy hst
      exact hmin y (List.mem_filter.mpr ⟨hy, by simpa using hst⟩)
  · intro eid
    refine ⟨first_by_rank_eq_none _ _, ?_⟩
    intro s hs
    obtain ⟨hmem, hmin⟩ := first_by_rank_mem_min _ hs
    have hmem1 : s ∈ db.filter (fun s => s.state = SolutionState.CREATED) :=
      List.mem_of_mem_filter hmem
    refine ⟨List.mem_of_mem_filter hmem1, ?_, ?_, ?_⟩
    · have := List.of_mem_filter hmem1
      simpa using this
    · have := List.of_mem_filter hmem
      simpa using this
    · intro y hy hst hex
      refine hmin y (List.mem_filter.mpr ⟨?_, by simpa using hex⟩)
      exact List.mem_filter.mpr ⟨hy, by simpa using hst⟩
  · intro s
    unfold rank_key
    rw [comments_count_eq, failures_count_eq]

/-- C4, witness: on the concrete instance of the claim (three CREATED
solutions with comment counts 2, 0, 1 and failure counts 0, 0, 3) the
amended theorem confirms the returned solution is CREATED and beaten by
no other, and the returned one is the solution with zero comments. -/
theorem claim_C4_witness :
    (⟨2, 1, 2, SolutionState.CREATED, 1, ""⟩ : SolutionRow) ∈
      [⟨1, 1, 1, SolutionState.CREATED, 0, ""⟩,
       ⟨2, 1, 2, SolutionState.CREATED, 1, ""⟩,
       ⟨3, 1, 3, SolutionState.CREATED, 2, ""⟩] ∧
    (⟨2, 1, 2, SolutionState.CREATED, 1, ""⟩ : SolutionRow).state
      = SolutionState.CREATED ∧
    key_lt
      (rank_key [⟨1, 1⟩, ⟨2, 1⟩, ⟨3, 3⟩] [⟨1, 3⟩, ⟨2, 3⟩, ⟨3, 3⟩]
        ⟨1, 1, 1, SolutionState.CREATED, 0, ""⟩)
      (rank_key [⟨1, 1⟩, ⟨2, 1⟩, ⟨3, 3⟩] [⟨1, 3⟩, ⟨2, 3⟩, ⟨3, 3⟩]
        ⟨2, 1, 2, SolutionState.CREATED, 1, ""⟩) = false ∧
    key_lt
      (rank_key [⟨1, 1⟩, ⟨2, 1⟩, ⟨3, 3⟩] [⟨1, 3⟩, ⟨2, 3⟩, ⟨3, 3⟩]
        ⟨3, 1, 3, SolutionState.CREATED, 2, ""⟩)
      (rank_key [⟨1, 1⟩, ⟨2, 1⟩, ⟨3, 3⟩] [⟨1, 3⟩, ⟨2, 3⟩, ⟨3, 3⟩]
        ⟨2, 1, 2, SolutionState.CREATED, 1, ""⟩) = false := by
  have h := (claim_C4
    [⟨1, 1, 1, SolutionState.CREATED, 0, ""⟩,
     ⟨2, 1, 2, SolutionState.CREATED, 1, ""⟩,
     ⟨3, 1, 3, SolutionState.CREATED, 2, ""⟩]
    [⟨1, 1⟩, ⟨2, 1⟩, ⟨3, 3⟩] [⟨1, 3⟩, ⟨2, 3⟩, ⟨3, 3⟩]).2.1
    ⟨2, 1, 2, SolutionState.CREATED, 1, ""⟩ rfl
  exact ⟨h.1, h.2.1,
    h.2.2 ⟨1, 1, 1, SolutionState.CREATED, 0, ""⟩ (by decide) rfl,
    h.2.2 ⟨3, 1, 3, SolutionState.CREATED, 2, ""⟩ (by decide) rfl⟩

/-! ### Helper lemmas about the notification store -/

/-- After `send`, the recipient rows are a permutation of the first
MAX_PER_USER rows of the creation-time-descending order of the inserted
table: the retention trigger deletes exactly the rows beyond the cap. -/
theorem send_user_rows_perm (db : NotificationTable) (nid uid kind : Nat)
    (message : String) (related_id : Option Nat) (action_url : Option String)
    (created : Nat)
    (hnodup : (db.map NotificationRow.id).Nodup)
    (hfresh : ∀ n ∈ db, n.id ≠ nid) :
    ((send db nid uid kind message related_id action_url created).filter
        (fun n => n.user = uid)).Perm
      ((List.insertionSort created_desc
        ((db ++ [(⟨nid, uid, created, kind, message, related_id, action_url,
          false⟩ : NotificationRow)]).filter
          (fun n => n.user = uid))).take MAX_PER_USER) := by
  set newRow : NotificationRow :=
    ⟨nid, uid, created, kind, message, related_id, action_url, false⟩
    with hnewRow
  set db1 := db ++ [newRow] with hdb1
  set u1 := db1.filter (fun n => n.user = uid) with hu1
  set srt := List.insertionSort created_desc u1 with hsrt
  set old := srt.drop MAX_PER_USER with hold
  set keep : NotificationRow → Bool :=
    fun n => !(old.any (fun o => o.id = n.id)) with hkeep
  have hA : (send db nid uid kind message related_id action_url created).filter
      (fun n => n.user = uid) = u1.filter keep := by
    show (db1.filter keep).filter (fun n => n.user = uid) = _
    rw [hu1, List.filter_filter, List.filter_filter]
    exact List.filter_congr (fun a _ => Bool.and_comm _ _)
  have hnodup1 : (db1.map NotificationRow.id).Nodup := by
    rw [hdb1, List.map_append]
    rw [List.nodup_append]
    refine ⟨hnodup, by simp, ?_⟩
    intro a ha hb
    simp only [List.map_cons, List.map_nil, List.mem_singleton] at hb
    obtain ⟨n, hn, hna⟩ := List.mem_map.mp ha
    exact hfresh n hn (by rw [hna, hb])
  have hu1nodup : (u1.map NotificationRow.id).Nodup :=
    List.Nodup.sublist
      (List.Sublist.map NotificationRow.id (List.filter_sublist db1)) hnodup1
  have hperm : srt.Perm u1 := List.perm_insertionSort created_desc u1
  have hsrtnodup : (srt.map NotificationRow.id).Nodup :=
    ((hperm.map NotificationRow.id).nodup_iff).mpr hu1nodup
  have htd : srt.take MAX_PER_USER ++ old = srt := by
    rw [hold]; exact List.take_append_drop _ _
  have hF1 : old.filter keep = [] := by
    rw [List.filter_eq_nil_iff]
    intro o ho
    have hany : old.any (fun o2 => o2.id = o.id) = true :=
      List.any_eq_true.mpr ⟨o, ho, by simp⟩
    simp [hkeep, hany]
  have hF2 : (srt.take MAX_PER_USER).filter keep = srt.take MAX_PER_USER := by
    rw [List.filter_eq_self]
    intro k hk
    have hids : ((srt.take MAX_PER_USER).map NotificationRow.id
        ++ old.map NotificationRow.id).Nodup := by
      rw [← List.map_append, htd]; exact hsrtnodup
    have hdisj := (List.nodup_append.mp hids).2.2
    have hany : old.any (fun o2 => o2.id = k.id) = false := by
      rw [List.any_eq_false]
      intro o ho
      simp only [decide_eq_true_eq]
      intro hid
      exact hdisj (List.mem_map_of_mem _ hk) (hid ▸ List.mem_map_of_mem _ ho)
    simp [hkeep, hany]
  have h2 : srt.filter keep = srt.take MAX_PER_USER := by
    conv_lhs => rw [← htd]
    rw [List.filter_append, hF1, hF2, List.append_nil]
  rw [hA, ← h2]
  exact (hperm.filter keep).symm

/-- C5 (confirmed): after `send` completes, the recipient retains
min(previous + 1, MAX_PER_USER) notification rows, every evicted row of
that user is no newer than every retained one, and 15 sequential sends
to one user leave exactly the 10 newest rows with the oldest 5
hard-deleted. -/
theorem claim_C5 (db : NotificationTable) (nid uid kind : Nat)
    (message : String) (related_id : Option Nat) (action_url : Option String)
    (created : Nat)
    (hnodup : (db.map NotificationRow.id).Nodup)
    (hfresh : ∀ n ∈ db, n.id ≠ nid) :
    ((send db nid uid kind message related_id action_url created).filter
        (fun n => n.user = uid)).length
      = min ((db.filter (fun n => n.user = uid)).length + 1) MAX_PER_USER ∧
    (∀ k ∈ (send db nid uid kind message related_id action_url created).filter
        (fun n => n.user = uid),
      ∀ d ∈ db ++ [(⟨nid, uid, created, kind, message, related_id, action_url,
          false⟩ : NotificationRow)],
        d.user = uid →
        d ∉ (send db nid uid kind message related_id action_url created).filter
          (fun n => n.user = uid) →
        d.created ≤ k.created) ∧
    (List.range 15).foldl
        (fun db2 k => send db2 (k + 1) 7 1 "m" none none k) []
      = [⟨6, 7, 5, 1, "m", none, none, false⟩,
         ⟨7, 7, 6, 1, "m", none, none, false⟩,
         ⟨8, 7, 7, 1, "m", none, none, false⟩,
         ⟨9, 7, 8, 1, "m", none, none, false⟩,
         ⟨10, 7, 9, 1, "m", none, none, false⟩,
         ⟨11, 7, 10, 1, "m", none, none, false⟩,
         ⟨12, 7, 11, 1, "m", none, none, false⟩,
         ⟨13, 7, 12, 1, "m", none, none, false⟩,
         ⟨14, 7, 13, 1, "m", none, none, false⟩,
         ⟨15, 7, 14, 1, "m", none, none, false⟩] := by
  have hmain := send_user_rows_perm db nid uid kind message related_id
    action_url created hnodup hfresh
  set newRow : NotificationRow :=
    ⟨nid, uid, created, kind, message, related_id, action_url, false⟩
    with hnewRow
  set db1 := db ++ [newRow] with hdb1
  set u1 := db1.filter (fun n => n.user = uid) with hu1
  set srt := List.insertionSort created_desc u1 with hsrt
  refine ⟨?_, ?_, ?_⟩
  · rw [hmain.length_eq, List.length_take]
    have hsrtlen : srt.length = u1.length :=
      (List.perm_insertionSort created_desc u1).length_eq
    have hu1len : u1.length
        = (db.filter (fun n => n.user = uid)).length + 1 := by
      rw [hu1, hdb1, List.filter_append]
      simp
    omega
  · intro k hk d hd hduser hdnot
    have hkmem : k ∈ srt.take MAX_PER_USER := hmain.mem_iff.mp hk
    have hdu1 : d ∈ u1 := List.mem_filter.mpr ⟨hd, by simpa using hduser⟩
    have hdsrt : d ∈ srt :=
      (List.perm_insertionSort created_desc u1).mem_iff.mpr hdu1
    have htd : srt.take MAX_PER_USER ++ srt.drop MAX_PER_USER = srt :=
      List.take_append_drop _ _
    rw [← htd] at hdsrt
    rcases List.mem_append.mp hdsrt with htk | hol
    · exact absurd (hmain.mem_iff.mpr htk) hdnot
    · have hsorted : List.Pairwise created_desc srt :=
        List.sorted_insertionSort created_desc u1
      rw [← htd] at hsorted
      exact (List.pairwise_append.mp hsorted).2.2 k hkmem d hol
  · decide

/-- C5, witness: the theorem applied to a user already at the cap: the
11th send keeps the count at 10 and the evicted row (creation time 0) is
older than the newly kept row (creation time 10). -/
theorem claim_C5_witness :
    ((send
      [⟨1, 7, 0, 1, "m", none, none, false⟩,
       ⟨2, 7, 1, 1, "m", none, none, false⟩,
       ⟨3, 7, 2, 1, "m", none, none, false⟩,
       ⟨4, 7, 3, 1, "m", none, none, false⟩,
       ⟨5, 7, 4, 1, "m", none, none, false⟩,
       ⟨6, 7, 5, 1, "m", none, none, false⟩,
       ⟨7, 7, 6, 1, "m", none, none, false⟩,
       ⟨8, 7, 7, 1, "m", none, none, false⟩,
       ⟨9, 7, 8, 1, "m", none, none, false⟩,
       ⟨10, 7, 9, 1, "m", none, none, false⟩] 11 7 1 "m" none none 10).filter
        (fun n => n.user = 7)).length = 10 ∧
    (⟨1, 7, 0, 1, "m", none, none, false⟩ : NotificationRow).created
      ≤ (⟨11, 7, 10, 1, "m", none, none, false⟩ : NotificationRow).created := by
  have h := claim_C5
    [⟨1, 7, 0, 1, "m", none, none, false⟩,
     ⟨2, 7, 1, 1, "m", none, none, false⟩,
     ⟨3, 7, 2, 1, "m", none, none, false⟩,
     ⟨4, 7, 3, 1, "m", none, none, false⟩,
     ⟨5, 7, 4, 1, "m", none, none, false⟩,
     ⟨6, 7, 5, 1, "m", none, none, false⟩,
     ⟨7, 7, 6, 1, "m", none, none, false⟩,
     ⟨8, 7, 7, 1, "m", none, none, false⟩,
     ⟨9, 7, 8, 1, "m", none, none, false⟩,
     ⟨10, 7, 9, 1, "m", none, none, false⟩] 11 7 1 "m" none none 10
    (by decide) (by decide)
  exact ⟨h.1, h.2.1 ⟨11, 7, 10, 1, "m", none, none, false⟩ (by decide)
    ⟨1, 7, 0, 1, "m", none, none, false⟩ (by decide) rfl (by decide)⟩

/-! ### Helper lemmas about the automated result ingestor -/

/-- The case loop of one suite: starting from any accumulator it adds
the failing-case count, forces tests-ran once any case is seen, and
appends one row per failing case in order. -/
theorem handle_case_foldl (sid : Nat) (suite : TestSuite) :
    ∀ acc : Nat × Bool × List ExecutionResultRow,
      suite.foldl (handle_case sid) acc
        = (acc.1 + (suite.filter is_failed_case).length,
           acc.2.1 || !suite.isEmpty,
           acc.2.2 ++ (suite.filter is_failed_case).map (failed_case_row sid)) := by
  induction suite with
  | nil => intro acc; simp
  | cons tc rest ih =>
      intro acc
      rw [List.foldl_cons, ih]
      cases htc : tc.result with
      | passed => simp [handle_case, htc, is_failed_case]
      | failed items text =>
          simp [handle_case, htc, is_failed_case, failed_case_row,
            List.append_assoc]
          omega

/-- Closed form of `_handle_test_suite`. -/
theorem handle_test_suite_eq (sid : Nat) (suite : TestSuite) :
    handle_test_suite sid suite
      = ((suite.filter is_failed_case).length, !suite.isEmpty,
         (suite.filter is_failed_case).map (failed_case_row sid)) := by
  unfold handle_test_suite
  rw [handle_case_foldl]
  simp

/-- The suite loop of `_populate_junit_results`: total failure count,
whether any case ran, and the created rows in order. -/
theorem handle_suites_foldl (sid : Nat) (suites : List TestSuite) :
    ∀ acc : Nat × Bool × List ExecutionResultRow,
      suites.foldl (handle_suites_step sid) acc
        = (acc.1 + (suites.flatten.filter is_failed_case).length,
           acc.2.1 || suites.any (fun su => !su.isEmpty),
           acc.2.2 ++ (suites.flatten.filter is_failed_case).map
             (failed_case_row sid)) := by
  induction suites with
  | nil => intro acc; simp
  | cons su rest ih =>
      intro acc
      rw [List.foldl_cons, ih]
      simp [handle_suites_step, handle_test_suite_eq, List.flatten_cons,
        List.filter_append, List.map_append, List.append_assoc, Bool.or_assoc,
        Nat.add_assoc]

/-- No case ran exactly when every parsed suite is empty. -/
theorem suites_ran_eq_false_iff (suites : List TestSuite) :
    (suites.any (fun su => !su.isEmpty) = false) ↔ suites.flatten = [] := by
  rw [List.any_eq_false, List.flatten_eq_nil_iff]
  constructor
  · intro h l hl
    have := h l hl
    simpa using this
  · intro h l hl
    simp [h l hl]

/-- A parsed report in which no case ran takes the
fatal-execution-failure branch. -/
theorem populate_parsed_no_case (sid solver : Nat) (subject : String)
    (suites : List TestSuite)
    (h : suites.any (fun su => !su.isEmpty) = false) :
    populate_junit_results sid solver subject (RawReport.parsed suites)
      = Except.ok
          ((suites.flatten.filter is_failed_case).map (failed_case_row sid)
            ++ [⟨sid, FATAL_TEST_NAME, fatal_user_message,
              fatal_staff_message⟩],
           [⟨solver, sid, fatal_user_message⟩]) := by
  simp only [populate_junit_results]
  rw [handle_suites_foldl]
  simp [h]

/-- A parsed report in which some case ran takes the per-case path and
notifies exactly when the failure count is nonzero. -/
theorem populate_parsed_ran (sid solver : Nat) (subject : String)
    (suites : List TestSuite)
    (h : suites.any (fun su => !su.isEmpty) = true) :
    populate_junit_results sid solver subject (RawReport.parsed suites)
      = Except.ok
          ((suites.flatten.filter is_failed_case).map (failed_case_row sid),
           if (suites.flatten.filter is_failed_case).length = 0 then []
           else [⟨solver, sid, unit_test_fail_message
             (suites.flatten.filter is_failed_case).length subject⟩]) := by
  simp only [populate_junit_results]
  rw [handle_suites_foldl]
  simp [h]
  split <;> simp_all

/-- C6, counterexample: a non-empty unparseable report is not absorbed.
`TestSuite.fromstring` is called without a guard, so the parse error
propagates to the caller instead of being routed to the
fatal-execution-failure branch. -/
theorem claim_C6_counterexample :
    populate_junit_results 1 2 "ex" (RawReport.malformed "no xml")
      = Except.error () := rfl

/-- C6, amended: for every report the XML parser accepts and in which no
test case executed — a falsy (empty) report, or a parsed report whose
suites hold no case — ingestion does not raise; it creates exactly one
TestExecutionResult with the reserved synthetic check name and sends
exactly one notification to the solver, with no per-case rows.  A
non-empty unparseable report instead raises to the caller (see the
counterexample). -/
theorem claim_C6 (sid solver : Nat) (subject : String)
    (suites : List TestSuite) (hnone : suites.flatten = []) :
    populate_junit_results sid solver subject RawReport.empty
      = Except.ok
          ([⟨sid, FATAL_TEST_NAME, fatal_user_message, fatal_staff_message⟩],
           [⟨solver, sid, fatal_user_message⟩]) ∧
    populate_junit_results sid solver subject (RawReport.parsed suites)
      = Except.ok
          ([⟨sid, FATAL_TEST_NAME, fatal_user_message, fatal_staff_message⟩],
           [⟨solver, sid, fatal_user_message⟩]) := by
  constructor
  · rfl
  · have hran : suites.any (fun su => !su.isEmpty) = false :=
      (suites_ran_eq_false_iff suites).mpr hnone
    rw [populate_parsed_no_case sid solver subject suites hran, hnone]
    simp

/-- C6, witness: the amended theorem applied to the empty report and to
a parsed report of two empty suites. -/
theorem claim_C6_witness :
    populate_junit_results 1 2 "ex" RawReport.empty
      = Except.ok
          ([⟨1, FATAL_TEST_NAME, fatal_user_message, fatal_staff_message⟩],
           [⟨2, 1, fatal_user_message⟩]) ∧
    populate_junit_results 1 2 "ex" (RawReport.parsed [[], []])
      = Except.ok
          ([⟨1, FATAL_TEST_NAME, fatal_user_message, fatal_staff_message⟩],
           [⟨2, 1, fatal_user_message⟩]) :=
  claim_C6 1 2 "ex" [[], []] rfl

/-- C7 (confirmed): for every parsed report in which at least one case
executed, ingestion creates exactly one TestExecutionResult row per
failing case (in report order, none for passing cases) and sends
exactly one failure notification to the solver iff the failure count is
nonzero. -/
theorem claim_C7 (sid solver : Nat) (subject : String)
    (suites : List TestSuite) (hsome : suites.flatten ≠ []) :
    populate_junit_results sid solver subject (RawReport.parsed suites)
      = Except.ok
          ((suites.flatten.filter is_failed_case).map (failed_case_row sid),
           if (suites.flatten.filter is_failed_case).length = 0 then []
           else [⟨solver, sid, unit_test_fail_message
             (suites.flatten.filter is_failed_case).length subject⟩]) := by
  apply populate_parsed_ran
  cases hany : suites.any (fun su => !su.isEmpty) with
  | false => exact absurd ((suites_ran_eq_false_iff suites).mp hany) hsome
  | true => rfl

/-- C7, witness: a report with one suite of three cases, one failing,
yields exactly one execution result row and exactly one notification. -/
theorem claim_C7_witness :
    populate_junit_results 4 9 "ex"
      (RawReport.parsed [[⟨"t1", CaseResult.passed⟩,
        ⟨"t2", CaseResult.failed [("message", "boom")] "trace"⟩,
        ⟨"t3", CaseResult.passed⟩]])
      = Except.ok ([⟨4, "t2", "boom", "trace"⟩],
         [⟨9, 4, unit_test_fail_message 1 "ex"⟩]) := by
  have h := claim_C7 4 9 "ex" [[⟨"t1", CaseResult.passed⟩,
    ⟨"t2", CaseResult.failed [("message", "boom")] "trace"⟩,
    ⟨"t3", CaseResult.passed⟩]] (by decide)
  rw [h]
  rfl

/-- C8 (code bug): `left_in_exercise` computes the floor percentage over
the active solutions of the exercise — an exercise with 4 active
solutions, 2 of them DONE, yields 50 — but the division by zero is NOT
guarded: with no active solution the final expression raises, modelled
here as `Except.error`, and the error case happens exactly when the
exercise has no active solution. -/
theorem claim_C8 :
    (∀ (db : SolutionTable) (eid : Nat),
      left_in_exercise db eid = Except.error ()
        ↔ db.filter (fun s => s.exercise = eid ∧ s.state.isActive) = []) ∧
    left_in_exercise [⟨1, 1, 1, SolutionState.OLD_SOLUTION, 0, ""⟩] 1
      = Except.error () ∧
    left_in_exercise
      [⟨1, 1, 1, SolutionState.DONE, 0, ""⟩,
       ⟨2, 1, 2, SolutionState.DONE, 0, ""⟩,
       ⟨3, 1, 3, SolutionState.CREATED, 0, ""⟩,
       ⟨4, 1, 4, SolutionState.IN_CHECKING, 0, ""⟩] 1 = Except.ok 50 := by
  refine ⟨?_, rfl, rfl⟩
  intro db eid
  constructor
  · intro h
    by_cases hz : (db.filter
        (fun s => s.exercise = eid ∧ s.state.isActive)).length = 0
    · exact List.length_eq_zero.mp hz
    · simp only [left_in_exercise] at h
      rw [if_neg hz] at h
      simp at h
  · intro h
    have hz : (db.filter
        (fun s => s.exercise = eid ∧ s.state.isActive)).length = 0 := by
      rw [h]; rfl
    simp only [left_in_exercise]
    rw [if_pos hz]

/-- C9, counterexample: `Solution.status` does not exclude archived
exercises.  An archived exercise with one CREATED solution appears in
the aggregate, its `is_archived` column set to true. -/
theorem claim_C9_counterexample :
    status [⟨1, "a", true⟩] [⟨1, 1, 1, SolutionState.CREATED, 0, ""⟩]
      = [⟨1, "a", true, 1, 0⟩] ∧
    (⟨1, "a", true, 1, 0⟩ : StatusRow).is_archived = true := by
  decide

/-- C9, amended: every row of `Solution.status` corresponds to an
exercise of the table — archived or not, no archived filter is applied;
the query only exposes the `is_archived` flag as a column — having at
least one active solution, with `submitted` the count of its active
solutions and `checked` the count of its DONE ones. -/
theorem claim_C9 (exs : List ExerciseRow) (db : SolutionTable) :
    ∀ r ∈ status exs db,
      (∃ e ∈ exs, e.id = r.id ∧ e.subject = r.name ∧
        e.is_archived = r.is_archived) ∧
      r.submitted = (db.filter
        (fun s => s.exercise = r.id ∧ s.state.isActive)).length ∧
      r.checked = ((db.filter
        (fun s => s.exercise = r.id ∧ s.state.isActive)).filter
          (fun s => s.state = SolutionState.DONE)).length ∧
      0 < r.submitted := by
  intro r hr
  unfold status at hr
  obtain ⟨e, hmem, heq⟩ := List.mem_filterMap.mp hr
  have hexs : e ∈ exs :=
    (List.perm_insertionSort (fun a b : ExerciseRow => a.id ≤ b.id)
      exs).mem_iff.mp hmem
  by_cases hemp : (db.filter
      (fun s => s.exercise = e.id ∧ s.state.isActive)).isEmpty
  · rw [if_pos hemp] at heq
    cases heq
  · rw [if_neg hemp] at heq
    injection heq with heq2
    subst heq2
    refine ⟨⟨e, hexs, rfl, rfl, rfl⟩, rfl, rfl, ?_⟩
    exact List.length_pos.mpr (fun hnil => hemp (by rw [hnil]; rfl))

/-- C9, witness: the amended theorem applied to the archived exercise of
the counterexample table. -/
theorem claim_C9_witness :
    (⟨1, "a", true, 1, 0⟩ : StatusRow).submitted = 1 ∧
    (⟨1, "a", true, 1, 0⟩ : StatusRow).checked = 0 ∧
    0 < (⟨1, "a", true, 1, 0⟩ : StatusRow).submitted := by
  have h := claim_C9 [⟨1, "a", true⟩] [⟨1, 1, 1, SolutionState.CREATED, 0, ""⟩]
    ⟨1, "a", true, 1, 0⟩ (by decide)
  exact ⟨h.2.1, h.2.2.1, h.2.2.2⟩

/-- C10 (confirmed): `solution_exists` is true exactly when some row of
the pair carries byte-identical content — with no restriction on the
state or the recency of that row; in particular a long-superseded
OLD_SOLUTION row with matching content suffices even when the newest
submission differs. -/
theorem claim_C10 (db : SolutionTable) (eid uid : Nat) (json : String) :
    (solution_exists db eid uid json = true
      ↔ ∃ s ∈ db, s.exercise = eid ∧ s.solver = uid
          ∧ s.json_data_str = json) ∧
    solution_exists
      [⟨1, 1, 1, SolutionState.OLD_SOLUTION, 0, "x"⟩,
       ⟨2, 1, 1, SolutionState.CREATED, 5, "y"⟩] 1 1 "x" = true := by
  refine ⟨?_, by decide⟩
  unfold solution_exists
  rw [List.any_eq_true]
  constructor
  · rintro ⟨s, hs, hp⟩
    exact ⟨s, hs, by simpa using hp⟩
  · rintro ⟨s, hs, hp⟩
    exact ⟨s, hs, by simpa using hp⟩

end LMS
